/-
Verification of the Spotify_Downloader repository against its natural-language
specification.

The repository ships a React/TypeScript frontend (src/src and the unnamed parts)
on top of a Rust (Tauri) backend that is not part of the checked-out sources:
only the frontend, READMEs and a test-suite description are present.  The
frontend code is embedded shallowly and faithfully below; the pieces of the
orchestration core that live in the missing Rust backend (the metadata
aggregator merge, the download scheduler, the deep-search limit multiplier) are
modelled from the specification, each such definition carrying a doc comment
that starts with "Modelled from the spec:".

Conventions:
  * TypeScript optional fields (`x?: T`) become `Option T`;
  * JavaScript string falsiness (`s && ...`) becomes a `= ""` test;
  * JavaScript numbers that only ever hold counts become `Nat`/`Int`,
    fractional arithmetic (`(a/b)*100`) becomes `ℚ`;
  * the stable `Array.prototype.sort` is modelled by Mathlib's stable
    `List.insertionSort` over the index-tagged list, with the comparator's
    order refined by input position on ties - exactly the stable-sort
    semantics ECMAScript guarantees.
-/
import Mathlib

/-! ## Data model, from `src/src/types/index.ts` (src/unnamed/part_007) -/

/-- The `DownloadStatus` union type of src/unnamed/part_007 lines 32-39:
exactly the seven string literals. -/
inductive DownloadStatus
  | pending
  | downloading
  | processing
  | completed
  | failed
  | paused
  | cancelled
deriving DecidableEq, Repr

/-- The string literal each `DownloadStatus` constructor stands for in the
TypeScript union. -/
def statusStr : DownloadStatus → String
  | .pending => "pending"
  | .downloading => "downloading"
  | .processing => "processing"
  | .completed => "completed"
  | .failed => "failed"
  | .paused => "paused"
  | .cancelled => "cancelled"

/-- The `TrackInfo` interface of src/unnamed/part_007.  The
`relevance_score` field is not declared in the interface but is read from the
same objects via `(track as any).relevance_score` in EnhancedResultsList
(src/unnamed/part_006), so it is carried here as an optional field. -/
structure TrackInfo where
  id : String
  title : String
  artist : String
  album : Option String
  duration : Option Nat
  year : Option Nat
  genre : Option String
  thumbnail_url : Option String
  source : String
  url : String
  isrc : Option String
  album_artist : Option String
  track_number : Option Nat
  disc_number : Option Nat
  composer : Option String
  relevance_score : Option Int
deriving DecidableEq, Repr

/-- The `DownloadTask` interface of src/unnamed/part_007. -/
structure DownloadTask where
  id : String
  track_info : TrackInfo
  output_path : String
  status : DownloadStatus
  progress : ℚ
  error : Option String
  created_at : String
  started_at : Option String
  completed_at : Option String
  order : Nat
deriving DecidableEq, Repr

/-! ## Search dispatch, from `src/src/App.tsx` and
`src/src/components/SearchBar.tsx` -/

/-- Whitespace characters stripped by JavaScript `String.prototype.trim`
(the ASCII subset relevant to queries). -/
def jsWhitespaceChar (c : Char) : Bool :=
  c = ' ' || c = '\t' || c = '\n' || c = '\r' || c = '\x0b' || c = '\x0c'

/-- JavaScript `query.trim()`: strip leading and trailing whitespace. -/
def jsTrim (s : String) : String :=
  ⟨((s.data.dropWhile jsWhitespaceChar).reverse.dropWhile jsWhitespaceChar).reverse⟩

/-- The two Tauri commands `handleSearch` can invoke
(App.tsx lines 38-52): `search_tracks` with a request record
(query, limit, sources) and `deep_search_tracks` with (query, limit). -/
inductive SearchRequest
  | normal (query : String) (limit : Nat) (sources : List String)
  | deep (query : String) (limit : Nat)
deriving DecidableEq, Repr

/-- The request `handleSearch` (App.tsx lines 33-52) issues for a given query:
`if (!query.trim()) return` rejects a whitespace-only query before any
invoke; otherwise exactly one backend command is invoked, with the trimmed
query and limit 20. -/
def handleSearchRequest (query : String) (deepSearch : Bool) : Option SearchRequest :=
  if jsTrim query = "" then none
  else some (if deepSearch then .deep (jsTrim query) 20
             else .normal (jsTrim query) 20 [])

/-- The effect of `handleSearch` on the `searchResults` state: unchanged when
the query trims to empty (early return), otherwise replaced by the response
tracks (`setSearchResults(result.tracks || [])`). -/
def handleSearchResults (current : List TrackInfo) (query : String)
    (responseTracks : List TrackInfo) : List TrackInfo :=
  if jsTrim query = "" then current else responseTracks

/-- `handleSubmit` of SearchBar.tsx lines 13-18: the `onSearch` callback is
invoked (with the raw query and the deep-search flag) only when the query
trims non-empty and no search is in flight. -/
def searchBarSubmit (query : String) (isSearching : Bool) (deepSearch : Bool) :
    Option (String × Bool) :=
  if jsTrim query ≠ "" ∧ isSearching = false then some (query, deepSearch) else none

/-- Modelled from the spec: the Rust backend (the `src-tauri` crate
implementing the `search_tracks` and `deep_search_tracks` commands) is not
among the checked-out sources.  Spec section 4.1: `deepSearch` "raises the
per-source result limit by a fixed multiplier (the source system uses 7×)". -/
def deepSearchMultiplier : Nat := 7

/-- Modelled from the spec: the concrete search-source lists live in the
missing backend; only their shape is fixed - a base list for ordinary search
and additional deep-only sources, so that deep search "queries a superset of
sources" (spec section 4.1). -/
structure SourcesConfig where
  baseSources : List String
  deepOnlySources : List String
deriving DecidableEq, Repr

/-- Modelled from the spec: the per-source result limit the backend uses for a
request - the request's limit for an ordinary search, the fixed 7× multiple of
it for a deep search. -/
def perSourceLimit : SearchRequest → Nat
  | .normal _ limit _ => limit
  | .deep _ limit => deepSearchMultiplier * limit

/-- Modelled from the spec: the sources the backend queries for a request; a
deep search queries the ordinary sources plus the deep-only ones. -/
def requestSources (cfg : SourcesConfig) : SearchRequest → List String
  | .normal _ _ _ => cfg.baseSources
  | .deep _ _ => cfg.baseSources ++ cfg.deepOnlySources

/-! ## Relevance ranking, from `EnhancedResultsList` (src/unnamed/part_006,
`filteredAndSortedResults`, lines 102-120) -/

/-- The effective relevance score used by the comparator:
`(a as any).relevance_score || 0`. -/
def effScore (t : TrackInfo) : Int := t.relevance_score.getD 0

/-- The ordering realised by the stable JavaScript sort with comparator
`scoreB - scoreA` on the index-tagged list: higher score first, and on equal
scores the element at the smaller input index first.  ECMAScript's
`Array.prototype.sort` is stable, so its result is the unique permutation
sorted by this total preorder. -/
def relRank (x y : Nat × TrackInfo) : Prop :=
  effScore y.2 < effScore x.2 ∨ (effScore x.2 = effScore y.2 ∧ x.1 ≤ y.1)

instance : DecidableRel relRank := fun x y => by
  unfold relRank; exact inferInstance

instance : IsTotal (Nat × TrackInfo) relRank := by
  constructor
  intro a b
  rcases lt_trichotomy (effScore a.2) (effScore b.2) with h | h | h
  · exact Or.inr (Or.inl h)
  · rcases Nat.le_total a.1 b.1 with h1 | h1
    · exact Or.inl (Or.inr ⟨h, h1⟩)
    · exact Or.inr (Or.inr ⟨h.symm, h1⟩)
  · exact Or.inl (Or.inl h)

instance : IsTrans (Nat × TrackInfo) relRank := by
  constructor
  intro a b c hab hbc
  rcases hab with h | ⟨he, hi⟩
  · rcases hbc with h2 | ⟨he2, _⟩
    · exact Or.inl (lt_trans h2 h)
    · exact Or.inl (he2 ▸ h)
  · rcases hbc with h2 | ⟨he2, hi2⟩
    · exact Or.inl (he ▸ h2)
    · exact Or.inr ⟨he.trans he2, le_trans hi hi2⟩

/-- The relevance branch of `filteredAndSortedResults` on the index-tagged
list: the stable sort of the (filtered) results by descending
`relevance_score || 0`. -/
def sortTaggedByRelevance (l : List TrackInfo) : List (Nat × TrackInfo) :=
  l.enum.insertionSort relRank

/-- The relevance branch of `filteredAndSortedResults`: the displayed order of
the results. -/
def sortByRelevance (l : List TrackInfo) : List TrackInfo :=
  (sortTaggedByRelevance l).map Prod.snd

/-! ## Download-queue view, from `DownloadQueue` (src/unnamed/part_002) -/

/-- Predicate of the Downloading section of `groupedTasks` (part_002 line 120):
status (lower-cased; the embedded statuses are already the lower-case
literals) is `downloading` or `processing`. -/
def groupDownloadingP (t : DownloadTask) : Bool :=
  statusStr t.status == "downloading" || statusStr t.status == "processing"

/-- Predicate of the Completed section of `groupedTasks` (part_002 line 121). -/
def groupCompletedP (t : DownloadTask) : Bool :=
  statusStr t.status == "completed"

/-- Predicate of the Failed section of `groupedTasks` (part_002 line 122). -/
def groupFailedP (t : DownloadTask) : Bool :=
  statusStr t.status == "failed"

/-- Predicate of the Pending section of `groupedTasks` (part_002 line 123):
status is `pending` or `paused`. -/
def groupPendingP (t : DownloadTask) : Bool :=
  statusStr t.status == "pending" || statusStr t.status == "paused"

/-- The four sections of the queue view. -/
structure GroupedTasks where
  downloading : List DownloadTask
  completed : List DownloadTask
  failed : List DownloadTask
  pending : List DownloadTask
deriving DecidableEq, Repr

/-- `groupedTasks` of part_002 lines 118-124: the displayed (filtered) queue
partitioned into the four sections by status filters. -/
def groupedTasks (filteredQueue : List DownloadTask) : GroupedTasks where
  downloading := filteredQueue.filter groupDownloadingP
  completed := filteredQueue.filter groupCompletedP
  failed := filteredQueue.filter groupFailedP
  pending := filteredQueue.filter groupPendingP

/-- How many of the four section predicates hold for a task. -/
def sectionCount (t : DownloadTask) : Nat :=
  (if groupDownloadingP t then 1 else 0) + (if groupCompletedP t then 1 else 0)
    + (if groupFailedP t then 1 else 0) + (if groupPendingP t then 1 else 0)

/-- The record returned by `calculateOverallProgress` (part_002 lines 88-114).
Counts are naturals; `pending` is computed by JavaScript subtraction and so is
carried as an integer; the fractional quantities are rationals. -/
structure ProgressStats where
  total : Nat
  completed : Nat
  downloading : Nat
  failed : Nat
  pending : Int
  progress : ℚ
  downloadSpeed : ℚ
  eta : Int
deriving DecidableEq, Repr

/-- `calculateOverallProgress` of part_002 lines 88-114, field for field:
`completed`/`downloading`/`failed` are status-filter lengths (with
downloading counting both `downloading` and `processing`), `progress` is
`total > 0 ? (completed / total) * 100 : 0`, `pending` is
`total - completed - downloading - failed`, `downloadSpeed` is the
tracks-per-minute estimate rounded to one decimal, `eta` the ceiling of
remaining over speed. -/
def calculateOverallProgress (queue : List DownloadTask) : ProgressStats :=
  let total := queue.length
  let completed := (queue.filter (fun t => t.status == DownloadStatus.completed)).length
  let downloading := (queue.filter
    (fun t => t.status == DownloadStatus.downloading
      || t.status == DownloadStatus.processing)).length
  let failed := (queue.filter (fun t => t.status == DownloadStatus.failed)).length
  let progress : ℚ := if total > 0 then ((completed : ℚ) / (total : ℚ)) * 100 else 0
  let activeLen := (queue.filter
    (fun t => t.status == DownloadStatus.downloading
      || t.status == DownloadStatus.processing)).length
  let downloadSpeed : ℚ :=
    if activeLen > 0 then ((completed : ℚ) / (max 1 activeLen : ℚ)) * 60 else 0
  let remainingTasks : Int := (total : Int) - completed - failed
  let eta : Int :=
    if downloadSpeed > 0 ∧ remainingTasks > 0
    then ⌈(remainingTasks : ℚ) / downloadSpeed⌉ else 0
  { total := total
    completed := completed
    downloading := downloading
    failed := failed
    pending := (total : Int) - completed - downloading - failed
    progress := progress
    downloadSpeed := (round (downloadSpeed * 10) : ℚ) / 10
    eta := eta }

/-! ## Queue card, from `src/src/components/CompactTrackCard.tsx` -/

/-- Whether the card renders the retry button (CompactTrackCard lines 42-53):
`task.status === 'failed' && onRetry`, where `onRetryProvided` records whether
an `onRetry` callback was passed down.  The `DownloadQueue` view forwards its
optional `onRetryDownload` prop, and `App.tsx` (lines 201-207) does not supply
one. -/
def cardRetryShown (t : DownloadTask) (onRetryProvided : Bool) : Bool :=
  (t.status == DownloadStatus.failed) && onRetryProvided

/-- Whether App.tsx supplies a retry handler to the queue view: it passes only
`queue`, `onRemove`, `onRefresh`, `onDownloadAll` and `onClearList`. -/
def appQueueRetryProvided : Bool := false

/-- The status badge of the card (CompactTrackCard lines 103-110): a ternary
chain with no case for `processing` or `cancelled`, both of which fall through
to `'Pending'`. -/
def statusBadgeText : DownloadStatus → String
  | .downloading => "Downloading..."
  | .completed => "Completed"
  | .failed => "Failed"
  | .paused => "Paused"
  | _ => "Pending"

/-- `remainingSeconds.toString().padStart(2, '0')`. -/
def padStartTwoZero (s : String) : String :=
  if s.length ≥ 2 then s else "0" ++ s

/-- `formatDuration` of CompactTrackCard lines 24-29 on a known duration. -/
def formatDuration (seconds : Nat) : String :=
  toString (seconds / 60) ++ ":" ++ padStartTwoZero (toString (seconds % 60))

/-- The album-art label (CompactTrackCard lines 69-73):
the track number when truthy, else a music-note glyph (the source file's
bytes for the numero and note glyphs are mojibake of these characters). -/
def albumArtLabel (ti : TrackInfo) : String :=
  match ti.track_number with
  | some n => if n ≠ 0 then "№" ++ toString n else "♪"
  | none => "♪"

/-- The artist line (CompactTrackCard lines 80-83): the artist, followed by
a bullet and the album when the album string is truthy. -/
def artistLine (ti : TrackInfo) : String :=
  ti.artist ++
    (match ti.album with
     | some a => if a ≠ "" then " • " ++ a else ""
     | none => "")

/-- Every dynamic text the card renders for a task, in document order
(CompactTrackCard lines 31-134): album-art label, title, artist line,
optional year, optional genre (commas spaced), status badge, rounded
progress percentage, optional formatted duration.  The task's `error` field
is read nowhere in the component. -/
def cardTexts (t : DownloadTask) : List String :=
  [albumArtLabel t.track_info, t.track_info.title, artistLine t.track_info]
    ++ (match t.track_info.year with
        | some y => if y ≠ 0 then [toString y] else []
        | none => [])
    ++ (match t.track_info.genre with
        | some g => if g ≠ "" then [g.replace "," ", "] else []
        | none => [])
    ++ [statusBadgeText t.status, toString (round t.progress) ++ "%"]
    ++ (match t.track_info.duration with
        | some d => if d ≠ 0 then [formatDuration d] else []
        | none => [])

/-- A concrete failed task used to evaluate the card: failed with a recorded
error reason. -/
def sampleFailedTask : DownloadTask where
  id := "t1"
  track_info :=
    { id := "tr1"
      title := "Song A"
      artist := "Artist B"
      album := none
      duration := none
      year := none
      genre := none
      thumbnail_url := none
      source := "youtube"
      url := "https://example.invalid/a"
      isrc := none
      album_artist := none
      track_number := none
      disc_number := none
      composer := none
      relevance_score := none }
  output_path := "/music/a.mp3"
  status := .failed
  progress := 0
  error := some "network timeout"
  created_at := "2024-01-01T00:00:00Z"
  started_at := none
  completed_at := none
  order := 0

/-! ## Keyboard shortcuts, from `src/src/hooks/useKeyboardShortcuts.ts` -/

/-- The `KeyboardShortcut` interface (lines 3-11); the `action` callback is
identified by a number, the modifier flags are optional as in TypeScript. -/
structure KeyboardShortcut where
  key : String
  ctrlKey : Option Bool
  shiftKey : Option Bool
  altKey : Option Bool
  metaKey : Option Bool
  action : Nat
  description : String
deriving DecidableEq, Repr

/-- A DOM keydown event, as read by `handleKeyDown`. -/
structure KeyEvent where
  key : String
  ctrlKey : Bool
  shiftKey : Bool
  altKey : Bool
  metaKey : Bool
deriving DecidableEq, Repr

/-- JavaScript `toLowerCase`, modelled character-wise. -/
def jsToLowerCase (s : String) : String := ⟨s.data.map Char.toLower⟩

/-- The match predicate inside `shortcuts.find` (lines 31-38): key compared
lower-cased, `!!shortcut.ctrlKey` against `event.ctrlKey || event.metaKey`,
`!!shortcut.shiftKey` against `event.shiftKey`, `!!shortcut.altKey` against
`event.altKey`.  The declared `metaKey` field of a shortcut is never
consulted. -/
def matchesShortcut (ev : KeyEvent) (sc : KeyboardShortcut) : Bool :=
  (jsToLowerCase sc.key == jsToLowerCase ev.key)
    && (sc.ctrlKey.getD false == (ev.ctrlKey || ev.metaKey))
    && (sc.shiftKey.getD false == ev.shiftKey)
    && (sc.altKey.getD false == ev.altKey)

/-- `handleKeyDown` (lines 22-45): when enabled, the first registered
shortcut matching the event, paired with whether
`preventDefault`/`stopPropagation` were called. -/
def handleKeyDown (enabled : Bool) (shortcuts : List KeyboardShortcut)
    (ev : KeyEvent) : Option KeyboardShortcut × Bool :=
  if enabled = false then (none, false)
  else
    match shortcuts.find? (matchesShortcut ev) with
    | some sc => (some sc, true)
    | none => (none, false)

/-! ## Metadata aggregator, modelled from the spec (sections 4.2 and 8) -/

/-- The fields of the Canonical Metadata Record (spec section 3): the Track
Identity fields plus genre, year, track and disc number, composer, album
artist, cover art and lyrics. -/
inductive MetaField
  | title
  | artist
  | album
  | genre
  | year
  | trackNumber
  | discNumber
  | composer
  | albumArtist
  | coverArt
  | lyrics
deriving DecidableEq, Repr

/-- Modelled from the spec: the Metadata Aggregator lives in the missing Rust
backend.  A record (canonical or a provider's partial answer) assigns each
field an optional value; `none` is "the field is empty". -/
def MetaRecord : Type := MetaField → Option String

/-- Modelled from the spec: merging one provider's partial answer into the
accumulated record - "later providers only fill gaps, never overwrite an
already-filled field" (spec section 3). -/
def mergeRecord (acc provider : MetaRecord) : MetaRecord :=
  fun f =>
    match acc f with
    | some v => some v
    | none => provider f

/-- Modelled from the spec: folding the providers' answers, in priority order,
into a starting record. -/
def aggregateFrom (acc : MetaRecord) (providers : List MetaRecord) : MetaRecord :=
  providers.foldl mergeRecord acc

/-- The record with every field empty. -/
def emptyRecord : MetaRecord := fun _ => none

/-- Modelled from the spec: `aggregate` - query the providers in priority
order and merge their partial answers into one canonical record. -/
def aggregate (providers : List MetaRecord) : MetaRecord :=
  aggregateFrom emptyRecord providers

/-- The first provider answer, in priority order, that supplies a value for a
field. -/
def firstSupplied (providers : List MetaRecord) (f : MetaField) : Option String :=
  providers.findSome? (fun p => p f)

/-! ## Task queue / scheduler, modelled from the spec (sections 4.3 and 5) -/

/-- Modelled from the spec: a Download Task as the Scheduler (in the missing
Rust backend) owns it - id, status, progress, last error, retry count and
dispatch order (spec section 3). -/
structure SchedTask where
  id : Nat
  status : DownloadStatus
  progress : ℚ
  error : Option String
  retryCount : Nat
  order : Nat
deriving DecidableEq, Repr

/-- Modelled from the spec: the Scheduler's state - the task list and the
configured `max_concurrent_downloads` limit, fixed for the run (the settings
form of src/unnamed/part_003 lines 337-349 constrains it to 1-10). -/
structure SchedState where
  tasks : List SchedTask
  maxConcurrent : Nat
deriving DecidableEq, Repr

/-- A task occupying a worker slot: status `downloading` or `processing`. -/
def isActiveTask (t : SchedTask) : Bool :=
  t.status == DownloadStatus.downloading || t.status == DownloadStatus.processing

/-- The number of tasks occupying worker slots. -/
def activeCount (tasks : List SchedTask) : Nat :=
  tasks.countP isActiveTask

/-- Replace a task's status. -/
def setStatus (t : SchedTask) (s : DownloadStatus) : SchedTask :=
  { t with status := s }

/-- A freshly enqueued task: `pending`, zero progress, no error, no retries. -/
def newTask (id ord : Nat) : SchedTask :=
  { id := id, status := .pending, progress := 0, error := none,
    retryCount := 0, order := ord }

/-- The Scheduler's starting state: an empty queue under a configured limit. -/
def SchedState.init (m : Nat) : SchedState :=
  { tasks := [], maxConcurrent := m }

/-- Modelled from the spec: the transitions of the Task Queue / Scheduler
(spec section 4.3).  A task is dispatched (`pending → downloading`) only when
a worker slot is free, that is when fewer than `maxConcurrent` tasks are
active; the remaining transitions are the state machine's other arrows plus
enqueue, removal and full clear. -/
inductive SchedStep : SchedState → SchedState → Prop
  | enqueue (s : SchedState) (id ord : Nat) :
      SchedStep s { s with tasks := s.tasks ++ [newTask id ord] }
  | dispatch (m : Nat) (l₁ l₂ : List SchedTask) (t : SchedTask)
      (hst : t.status = .pending)
      (hfree : activeCount (l₁ ++ t :: l₂) < m) :
      SchedStep ⟨l₁ ++ t :: l₂, m⟩ ⟨l₁ ++ setStatus t .downloading :: l₂, m⟩
  | toProcessing (m : Nat) (l₁ l₂ : List SchedTask) (t : SchedTask)
      (hst : t.status = .downloading) :
      SchedStep ⟨l₁ ++ t :: l₂, m⟩ ⟨l₁ ++ setStatus t .processing :: l₂, m⟩
  | complete (m : Nat) (l₁ l₂ : List SchedTask) (t : SchedTask)
      (hst : t.status = .processing) :
      SchedStep ⟨l₁ ++ t :: l₂, m⟩ ⟨l₁ ++ setStatus t .completed :: l₂, m⟩
  | fail (m : Nat) (l₁ l₂ : List SchedTask) (t : SchedTask) (reason : String)
      (hst : t.status = .downloading ∨ t.status = .processing) :
      SchedStep ⟨l₁ ++ t :: l₂, m⟩
        ⟨l₁ ++ { t with status := .failed, error := some reason } :: l₂, m⟩
  | retryTask (m : Nat) (l₁ l₂ : List SchedTask) (t : SchedTask)
      (hst : t.status = .failed) :
      SchedStep ⟨l₁ ++ t :: l₂, m⟩
        ⟨l₁ ++ { t with status := .pending, retryCount := t.retryCount + 1 } :: l₂, m⟩
  | pause (m : Nat) (l₁ l₂ : List SchedTask) (t : SchedTask)
      (hst : t.status = .pending ∨ t.status = .downloading
        ∨ t.status = .processing ∨ t.status = .failed) :
      SchedStep ⟨l₁ ++ t :: l₂, m⟩ ⟨l₁ ++ setStatus t .paused :: l₂, m⟩
  | resume (m : Nat) (l₁ l₂ : List SchedTask) (t : SchedTask)
      (hst : t.status = .paused) :
      SchedStep ⟨l₁ ++ t :: l₂, m⟩ ⟨l₁ ++ setStatus t .pending :: l₂, m⟩
  | cancel (m : Nat) (l₁ l₂ : List SchedTask) (t : SchedTask)
      (hst : t.status ≠ .completed ∧ t.status ≠ .cancelled) :
      SchedStep ⟨l₁ ++ t :: l₂, m⟩ ⟨l₁ ++ setStatus t .cancelled :: l₂, m⟩
  | remove (m : Nat) (l₁ l₂ : List SchedTask) (t : SchedTask) :
      SchedStep ⟨l₁ ++ t :: l₂, m⟩ ⟨l₁ ++ l₂, m⟩
  | clear (s : SchedState) :
      SchedStep s { s with tasks := [] }

/-- A state the Scheduler can reach from a starting state. -/
def SchedReachable (s₀ s : SchedState) : Prop :=
  Relation.ReflTransGen SchedStep s₀ s

/-- A provider answer supplying title and artist (the spec's scenario
provider A). -/
def providerA : MetaRecord := fun f =>
  match f with
  | .title => some "Hey Jude"
  | .artist => some "The Beatles"
  | _ => none

/-- A provider answer supplying genre, year and a conflicting title (the
spec's scenario provider B). -/
def providerB : MetaRecord := fun f =>
  match f with
  | .title => some "Hey Jude (Remastered)"
  | .genre => some "Rock"
  | .year => some "1968"
  | _ => none

/-- The Ctrl+K shortcut registered by `createAppShortcuts` for `onSearch`
(useKeyboardShortcuts.ts lines 74-81), its action identified by 0. -/
def searchShortcut : KeyboardShortcut :=
  { key := "k", ctrlKey := some true, shiftKey := none, altKey := none,
    metaKey := none, action := 0, description := "Focus search (Ctrl+K)" }

/-- A Ctrl+Shift-free keydown event for the capital letter K with Ctrl
held. -/
def ctrlKEvent : KeyEvent :=
  { key := "K", ctrlKey := true, shiftKey := false, altKey := false,
    metaKey := false }

/-! ## Helper lemmas -/

theorem jsTrim_eq_empty (s : String) (h : ∀ c ∈ s.data, jsWhitespaceChar c = true) :
    jsTrim s = "" := by
  have hd : s.data.dropWhile jsWhitespaceChar = [] :=
    List.dropWhile_eq_nil_iff.mpr h
  simp [jsTrim, hd]

theorem aggregateFrom_spec (providers : List MetaRecord) (acc : MetaRecord)
    (f : MetaField) :
    aggregateFrom acc providers f =
      ((acc f).elim (firstSupplied providers f) some) := by
  induction providers generalizing acc with
  | nil =>
    cases hf : acc f <;> simp [aggregateFrom, firstSupplied, hf]
  | cons p ps ih =>
    have : aggregateFrom acc (p :: ps) = aggregateFrom (mergeRecord acc p) ps := rfl
    rw [this, ih]
    cases hf : acc f with
    | some v =>
      have : mergeRecord acc p f = some v := by simp [mergeRecord, hf]
      simp [this, hf]
    | none =>
      have hm : mergeRecord acc p f = p f := by simp [mergeRecord, hf]
      rw [hm]
      cases hp : p f <;>
        simp [firstSupplied, List.findSome?_cons, hp]

/-- C1: in the Metadata Aggregator's merge, every field of the canonical
record is filled by the first provider in priority order that supplies a
value for it, and a field already filled in the accumulated record is never
overwritten by any later provider. -/
theorem aggregator_merge_first_wins (providers : List MetaRecord) (f : MetaField)
    (acc : MetaRecord) (v : String) (h : acc f = some v) :
    aggregateFrom acc providers f = some v
  ∧ aggregate providers f = firstSupplied providers f := by
  constructor
  · rw [aggregateFrom_spec, h]
    rfl
  · rw [aggregate, aggregateFrom_spec]
    rfl

/-- Witness for C1: with provider A already merged, provider B does not
overwrite A's title, and the merged record's title is the first supplied
one. -/
theorem aggregator_merge_first_wins_witness :
    aggregateFrom providerA [providerB] MetaField.title = some "Hey Jude"
  ∧ aggregate [providerA, providerB] MetaField.title
      = firstSupplied [providerA, providerB] MetaField.title :=
  ⟨(aggregator_merge_first_wins [providerB] .title providerA "Hey Jude" rfl).1,
   (aggregator_merge_first_wins [providerA, providerB] .title providerA "Hey Jude" rfl).2⟩

/-- C4: a query that is empty or whitespace-only is rejected before dispatch:
no backend search command is invoked, the displayed results are left
unchanged, and the search bar does not even fire its callback. -/
theorem empty_query_rejected (results : List TrackInfo) (query : String)
    (deepSearch searching : Bool) (resp : List TrackInfo)
    (h : ∀ c ∈ query.data, jsWhitespaceChar c = true) :
    handleSearchRequest query deepSearch = none
  ∧ handleSearchResults results query resp = results
  ∧ searchBarSubmit query searching deepSearch = none := by
  have ht := jsTrim_eq_empty query h
  refine ⟨?_, ?_, ?_⟩ <;>
    simp [handleSearchRequest, handleSearchResults, searchBarSubmit, ht]

/-- Witness for C4 at the whitespace-only query consisting of two spaces and
a tab. -/
theorem empty_query_rejected_witness :
    handleSearchRequest "  \t" true = none
  ∧ handleSearchResults [] "  \t" [] = []
  ∧ searchBarSubmit "  \t" false true = none :=
  empty_query_rejected [] "  \t" true false [] (by decide)

/-- C5: for any non-blank query, the frontend issues both variants with the
same limit 20, and the backend's per-source limit for the deep request is
exactly seven times the one for the ordinary request, over a superset of
sources. -/
theorem deep_search_seven_times (query : String) (cfg : SourcesConfig)
    (h : jsTrim query ≠ "") :
    handleSearchRequest query true = some (SearchRequest.deep (jsTrim query) 20)
  ∧ handleSearchRequest query false = some (SearchRequest.normal (jsTrim query) 20 [])
  ∧ perSourceLimit (SearchRequest.deep (jsTrim query) 20)
      = 7 * perSourceLimit (SearchRequest.normal (jsTrim query) 20 [])
  ∧ requestSources cfg (SearchRequest.normal (jsTrim query) 20 [])
      ⊆ requestSources cfg (SearchRequest.deep (jsTrim query) 20) := by
  refine ⟨?_, ?_, rfl, ?_⟩
  · simp [handleSearchRequest, h]
  · simp [handleSearchRequest, h]
  · exact List.subset_append_left _ _

/-- Witness for C5 at the query "hey jude" and a one-source configuration. -/
theorem deep_search_seven_times_witness :
    handleSearchRequest "hey jude" true = some (SearchRequest.deep (jsTrim "hey jude") 20)
  ∧ handleSearchRequest "hey jude" false
      = some (SearchRequest.normal (jsTrim "hey jude") 20 [])
  ∧ perSourceLimit (SearchRequest.deep (jsTrim "hey jude") 20)
      = 7 * perSourceLimit (SearchRequest.normal (jsTrim "hey jude") 20 [])
  ∧ requestSources ⟨["youtube"], ["soundcloud"]⟩
      (SearchRequest.normal (jsTrim "hey jude") 20 [])
      ⊆ requestSources ⟨["youtube"], ["soundcloud"]⟩
        (SearchRequest.deep (jsTrim "hey jude") 20) :=
  deep_search_seven_times "hey jude" ⟨["youtube"], ["soundcloud"]⟩ (by decide)

theorem activeCount_middle (l₁ l₂ : List SchedTask) (t : SchedTask) :
    activeCount (l₁ ++ t :: l₂)
      = activeCount l₁ + activeCount l₂ + (if isActiveTask t then 1 else 0) := by
  simp [activeCount, List.countP_append, List.countP_cons]
  omega

theorem isActive_set (t : SchedTask) (s : DownloadStatus) :
    isActiveTask (setStatus t s)
      = (s == DownloadStatus.downloading || s == DownloadStatus.processing) := rfl

theorem schedStep_bound {s s₂ : SchedState} (h : SchedStep s s₂)
    (hinv : activeCount s.tasks ≤ s.maxConcurrent) :
    activeCount s₂.tasks ≤ s₂.maxConcurrent ∧ s₂.maxConcurrent = s.maxConcurrent := by
  cases h with
  | enqueue s id ord =>
    refine ⟨?_, rfl⟩
    simpa [activeCount, List.countP_append, newTask, isActiveTask] using hinv
  | dispatch m l₁ l₂ t hst hfree =>
    refine ⟨?_, rfl⟩
    have ht : isActiveTask t = false := by simp [isActiveTask, hst]
    rw [activeCount_middle, ht] at hfree
    rw [show (⟨l₁ ++ setStatus t .downloading :: l₂, m⟩ : SchedState).tasks
        = l₁ ++ setStatus t .downloading :: l₂ from rfl, activeCount_middle, isActive_set]
    norm_num at hfree ⊢
    omega
  | toProcessing m l₁ l₂ t hst =>
    refine ⟨?_, rfl⟩
    have ht : isActiveTask t = true := by simp [isActiveTask, hst]
    rw [show (⟨l₁ ++ t :: l₂, m⟩ : SchedState).tasks = l₁ ++ t :: l₂ from rfl,
      activeCount_middle, ht] at hinv
    rw [show (⟨l₁ ++ setStatus t .processing :: l₂, m⟩ : SchedState).tasks
        = l₁ ++ setStatus t .processing :: l₂ from rfl, activeCount_middle, isActive_set]
    norm_num at hinv ⊢
    omega
  | complete m l₁ l₂ t hst =>
    refine ⟨?_, rfl⟩
    rw [show (⟨l₁ ++ t :: l₂, m⟩ : SchedState).tasks = l₁ ++ t :: l₂ from rfl,
      activeCount_middle] at hinv
    rw [show (⟨l₁ ++ setStatus t .completed :: l₂, m⟩ : SchedState).tasks
        = l₁ ++ setStatus t .completed :: l₂ from rfl, activeCount_middle, isActive_set]
    simp at hinv ⊢
    omega
  | fail m l₁ l₂ t reason hst =>
    refine ⟨?_, rfl⟩
    have hpost : isActiveTask { t with status := .failed, error := some reason } = false := rfl
    rw [show (⟨l₁ ++ t :: l₂, m⟩ : SchedState).tasks = l₁ ++ t :: l₂ from rfl,
      activeCount_middle] at hinv
    rw [show (⟨l₁ ++ { t with status := .failed, error := some reason } :: l₂, m⟩ :
        SchedState).tasks
        = l₁ ++ { t with status := .failed, error := some reason } :: l₂ from rfl,
      activeCount_middle, hpost]
    simp at hinv ⊢
    omega
  | retryTask m l₁ l₂ t hst =>
    refine ⟨?_, rfl⟩
    have hpost : isActiveTask { t with status := .pending, retryCount := t.retryCount + 1 }
        = false := rfl
    rw [show (⟨l₁ ++ t :: l₂, m⟩ : SchedState).tasks = l₁ ++ t :: l₂ from rfl,
      activeCount_middle] at hinv
    rw [show (⟨l₁ ++ { t with status := .pending, retryCount := t.retryCount + 1 } :: l₂, m⟩ :
        SchedState).tasks
        = l₁ ++ { t with status := .pending, retryCount := t.retryCount + 1 } :: l₂ from rfl,
      activeCount_middle, hpost]
    simp at hinv ⊢
    omega
  | pause m l₁ l₂ t hst =>
    refine ⟨?_, rfl⟩
    rw [show (⟨l₁ ++ t :: l₂, m⟩ : SchedState).tasks = l₁ ++ t :: l₂ from rfl,
      activeCount_middle] at hinv
    rw [show (⟨l₁ ++ setStatus t .paused :: l₂, m⟩ : SchedState).tasks
        = l₁ ++ setStatus t .paused :: l₂ from rfl, activeCount_middle, isActive_set]
    simp at hinv ⊢
    omega
  | resume m l₁ l₂ t hst =>
    refine ⟨?_, rfl⟩
    rw [show (⟨l₁ ++ t :: l₂, m⟩ : SchedState).tasks = l₁ ++ t :: l₂ from rfl,
      activeCount_middle] at hinv
    rw [show (⟨l₁ ++ setStatus t .pending :: l₂, m⟩ : SchedState).tasks
        = l₁ ++ setStatus t .pending :: l₂ from rfl, activeCount_middle, isActive_set]
    simp at hinv ⊢
    omega
  | cancel m l₁ l₂ t hst =>
    refine ⟨?_, rfl⟩
    rw [show (⟨l₁ ++ t :: l₂, m⟩ : SchedState).tasks = l₁ ++ t :: l₂ from rfl,
      activeCount_middle] at hinv
    rw [show (⟨l₁ ++ setStatus t .cancelled :: l₂, m⟩ : SchedState).tasks
        = l₁ ++ setStatus t .cancelled :: l₂ from rfl, activeCount_middle, isActive_set]
    simp at hinv ⊢
    omega
  | remove m l₁ l₂ t =>
    refine ⟨?_, rfl⟩
    rw [show (⟨l₁ ++ t :: l₂, m⟩ : SchedState).tasks = l₁ ++ t :: l₂ from rfl,
      activeCount_middle] at hinv
    rw [show (⟨l₁ ++ l₂, m⟩ : SchedState).tasks = l₁ ++ l₂ from rfl]
    rw [show activeCount (l₁ ++ l₂) = activeCount l₁ + activeCount l₂ by
      simp [activeCount, List.countP_append]]
    simp at hinv ⊢
    omega
  | clear s =>
    refine ⟨?_, rfl⟩
    simp [activeCount]

theorem sched_invariant (m : Nat) (st : SchedState)
    (h : SchedReachable (SchedState.init m) st) :
    activeCount st.tasks ≤ st.maxConcurrent ∧ st.maxConcurrent = m := by
  induction h with
  | refl => exact ⟨Nat.zero_le m, rfl⟩
  | tail hsteps hstep ih =>
    obtain ⟨hb, hm⟩ := ih
    obtain ⟨hb2, hm2⟩ := schedStep_bound hstep hb
    exact ⟨hb2, hm2.trans hm⟩

/-- C2: in every state the Scheduler can reach from an empty queue under the
configured limit `m` (`max_concurrent_downloads`), the number of tasks whose
status is `downloading` or `processing` never exceeds `m`. -/
theorem scheduler_concurrency_bound (m : Nat) (st : SchedState)
    (h : SchedReachable (SchedState.init m) st) :
    activeCount st.tasks ≤ m := by
  obtain ⟨hb, hm⟩ := sched_invariant m st h
  rw [hm] at hb
  exact hb

/-- Witness for C2: after enqueueing one task and dispatching it under limit
2, the active count is within the bound. -/
theorem scheduler_concurrency_bound_witness :
    activeCount [setStatus (newTask 0 0) DownloadStatus.downloading] ≤ 2 :=
  scheduler_concurrency_bound 2
    ⟨[setStatus (newTask 0 0) DownloadStatus.downloading], 2⟩
    (Relation.ReflTransGen.tail
      (Relation.ReflTransGen.single (SchedStep.enqueue (SchedState.init 2) 0 0))
      (SchedStep.dispatch 2 [] [] (newTask 0 0) rfl (by decide)))

/-- C3: every task of every reachable Scheduler state carries one of the seven
statuses of the `DownloadStatus` union - no operation produces a status
outside the set. -/
theorem task_status_in_seven_states (m : Nat) (st : SchedState)
    (h : SchedReachable (SchedState.init m) st) (t : SchedTask) (ht : t ∈ st.tasks) :
    statusStr t.status ∈
      ["pending", "downloading", "processing", "completed", "failed", "paused",
       "cancelled"] := by
  have hall : ∀ s : DownloadStatus, statusStr s ∈
      ["pending", "downloading", "processing", "completed", "failed", "paused",
       "cancelled"] := by
    intro s
    cases s <;> decide
  exact hall t.status

/-- Witness for C3 at a state reached by enqueueing and dispatching one
task. -/
theorem task_status_in_seven_states_witness :
    statusStr (setStatus (newTask 1 0) DownloadStatus.downloading).status ∈
      ["pending", "downloading", "processing", "completed", "failed", "paused",
       "cancelled"] :=
  task_status_in_seven_states 3
    ⟨[setStatus (newTask 1 0) DownloadStatus.downloading], 3⟩
    (Relation.ReflTransGen.tail
      (Relation.ReflTransGen.single (SchedStep.enqueue (SchedState.init 3) 1 0))
      (SchedStep.dispatch 3 [] [] (newTask 1 0) rfl (by decide)))
    (setStatus (newTask 1 0) DownloadStatus.downloading)
    (List.mem_singleton.mpr rfl)

/-- C6: ranking by relevance permutes the candidate list into non-increasing
effective-score order, and (witnessed on the index-tagged list) two
candidates with equal scores keep their relative input order: in the sorted
tagged list, any later element has either a strictly smaller score or an
equal score and a strictly larger original index. -/
theorem relevance_sort_sorted_stable (l : List TrackInfo) :
    (sortByRelevance l).Perm l
  ∧ (sortByRelevance l).Pairwise (fun a b => effScore b ≤ effScore a)
  ∧ (sortTaggedByRelevance l).Pairwise
      (fun x y => effScore y.2 < effScore x.2
        ∨ (effScore x.2 = effScore y.2 ∧ x.1 < y.1)) := by
  have hperm : (sortTaggedByRelevance l).Perm l.enum :=
    List.perm_insertionSort relRank l.enum
  have hsorted : List.Sorted relRank (sortTaggedByRelevance l) :=
    List.sorted_insertionSort relRank l.enum
  have hn0 : (l.enum.map Prod.fst).Nodup := List.nodup_enum_map_fst l
  have hn : ((sortTaggedByRelevance l).map Prod.fst).Nodup :=
    ((hperm.map Prod.fst).nodup_iff).mpr hn0
  have hpne : (sortTaggedByRelevance l).Pairwise (fun x y => x.1 ≠ y.1) :=
    (List.pairwise_map).mp hn
  have hstrict : (sortTaggedByRelevance l).Pairwise
      (fun x y => effScore y.2 < effScore x.2
        ∨ (effScore x.2 = effScore y.2 ∧ x.1 < y.1)) := by
    refine (hsorted.and hpne).imp ?_
    rintro a b ⟨hr, hne⟩
    rcases hr with h | ⟨he, hle⟩
    · exact Or.inl h
    · exact Or.inr ⟨he, lt_of_le_of_ne hle hne⟩
  refine ⟨?_, ?_, hstrict⟩
  · have hm := hperm.map Prod.snd
    rwa [List.enum_map_snd] at hm
  · refine (List.pairwise_map).mpr (hstrict.imp ?_)
    rintro x y (h | ⟨he, _⟩)
    · exact le_of_lt h
    · exact le_of_eq he.symm

/-- C8: the four queue-view sections are governed by their status predicates,
and those predicates cover each non-cancelled status exactly once while no
section accepts a cancelled task. -/
theorem queue_groups_partition (l : List DownloadTask) (t : DownloadTask) :
    (t ∈ (groupedTasks l).downloading ↔ t ∈ l ∧ groupDownloadingP t = true)
  ∧ (t ∈ (groupedTasks l).completed ↔ t ∈ l ∧ groupCompletedP t = true)
  ∧ (t ∈ (groupedTasks l).failed ↔ t ∈ l ∧ groupFailedP t = true)
  ∧ (t ∈ (groupedTasks l).pending ↔ t ∈ l ∧ groupPendingP t = true)
  ∧ (sectionCount t = 1 ↔ t.status ≠ DownloadStatus.cancelled)
  ∧ (sectionCount t = 0 ↔ t.status = DownloadStatus.cancelled) := by
  refine ⟨List.mem_filter, List.mem_filter, List.mem_filter, List.mem_filter, ?_, ?_⟩ <;>
  · cases h : t.status <;>
      simp [sectionCount, groupDownloadingP, groupCompletedP, groupFailedP,
        groupPendingP, statusStr, h]

theorem status_buckets (q : List DownloadTask) :
    q.countP (fun t => t.status == DownloadStatus.completed)
  + q.countP (fun t => t.status == DownloadStatus.downloading
      || t.status == DownloadStatus.processing)
  + q.countP (fun t => t.status == DownloadStatus.failed)
  + q.countP (fun t => t.status == DownloadStatus.pending
      || t.status == DownloadStatus.paused
      || t.status == DownloadStatus.cancelled)
  = q.length := by
  induction q with
  | nil => rfl
  | cons t q ih =>
    simp only [List.countP_cons, List.length_cons]
    cases h : t.status <;> simp [h] <;> omega

/-- C9: the summary's `pending` count is the total minus the completed,
downloading/processing and failed counts - which is exactly the number of
tasks whose status is `pending`, `paused` or `cancelled` - and on an empty
queue the overall progress is the rational 0 (the `total > 0` guard avoids
the division). -/
theorem queue_stats_pending_and_empty_progress :
    (∀ q : List DownloadTask,
      (calculateOverallProgress q).pending
        = (q.countP (fun t => t.status == DownloadStatus.pending
            || t.status == DownloadStatus.paused
            || t.status == DownloadStatus.cancelled) : Int))
  ∧ (calculateOverallProgress ([] : List DownloadTask)).progress = 0 := by
  constructor
  · intro q
    have hb := status_buckets q
    simp only [calculateOverallProgress]
    rw [← List.countP_eq_length_filter, ← List.countP_eq_length_filter,
      ← List.countP_eq_length_filter]
    omega
  · rfl

theorem find?_first {α : Type} (p : α → Bool) (l : List α) (a : α)
    (h : l.find? p = some a) :
    p a = true ∧ ∃ l₁ l₂, l = l₁ ++ a :: l₂ ∧ ∀ x ∈ l₁, p x = false := by
  induction l with
  | nil => simp at h
  | cons b l ih =>
    by_cases hb : p b = true
    · rw [List.find?_cons_of_pos _ hb] at h
      obtain rfl : b = a := by simpa using h
      exact ⟨hb, [], l, rfl, by simp⟩
    · rw [List.find?_cons_of_neg _ (by simpa using hb)] at h
      obtain ⟨hpa, l₁, l₂, hsplit, hall⟩ := ih h
      refine ⟨hpa, b :: l₁, l₂, by rw [hsplit]; rfl, ?_⟩
      intro x hx
      rcases List.mem_cons.mp hx with rfl | hx
      · simpa using hb
      · exact hall x hx

/-- C10: when the handler invokes a shortcut's action, that shortcut is the
first registered one matching the event (key lower-cased, modifier flags
equal, with the event's Ctrl and Meta merged), default handling and
propagation are suppressed, and an event carrying Meta instead of Ctrl
matches exactly the same shortcuts. -/
theorem keyboard_first_match (shortcuts : List KeyboardShortcut) (ev : KeyEvent)
    (sc : KeyboardShortcut)
    (h : (handleKeyDown true shortcuts ev).1 = some sc) :
    matchesShortcut ev sc = true
  ∧ (∃ l₁ l₂, shortcuts = l₁ ++ sc :: l₂ ∧ ∀ x ∈ l₁, matchesShortcut ev x = false)
  ∧ (handleKeyDown true shortcuts ev).2 = true
  ∧ ∀ (k : String) (sh al : Bool) (sc2 : KeyboardShortcut),
      matchesShortcut ⟨k, true, sh, al, false⟩ sc2
        = matchesShortcut ⟨k, false, sh, al, true⟩ sc2 := by
  unfold handleKeyDown at h ⊢
  simp only [show (true = false) = False by simp, if_false] at h ⊢
  cases hf : shortcuts.find? (matchesShortcut ev) with
  | none =>
    rw [hf] at h
    simp at h
  | some sc2 =>
    rw [hf] at h
    simp only [] at h
    obtain rfl : sc2 = sc := by simpa using h
    obtain ⟨hp, hsplit⟩ := find?_first (matchesShortcut ev) shortcuts sc2 hf
    refine ⟨hp, hsplit, rfl, ?_⟩
    intro k sh al sc3
    rfl

/-- Witness for C10: the Ctrl+K search shortcut fires on a Ctrl+K keydown. -/
theorem keyboard_first_match_witness :
    matchesShortcut ctrlKEvent searchShortcut = true
  ∧ (∃ l₁ l₂, [searchShortcut] = l₁ ++ searchShortcut :: l₂
      ∧ ∀ x ∈ l₁, matchesShortcut ctrlKEvent x = false)
  ∧ (handleKeyDown true [searchShortcut] ctrlKEvent).2 = true
  ∧ ∀ (k : String) (sh al : Bool) (sc2 : KeyboardShortcut),
      matchesShortcut ⟨k, true, sh, al, false⟩ sc2
        = matchesShortcut ⟨k, false, sh, al, true⟩ sc2 :=
  keyboard_first_match [searchShortcut] ctrlKEvent searchShortcut (by decide)

/-- Counterexample to C7: a concrete failed task whose recorded error reason
appears nowhere among the texts the queue card renders for it, and for which
the queue view as wired by App.tsx (which passes no retry handler down) shows
no retry button either. -/
theorem failed_card_hides_error_reason :
    sampleFailedTask.status = DownloadStatus.failed
  ∧ sampleFailedTask.error = some "network timeout"
  ∧ "network timeout" ∉ cardTexts sampleFailedTask
  ∧ cardRetryShown sampleFailedTask appQueueRetryProvided = false := by
  refine ⟨rfl, rfl, ?_, rfl⟩
  have hc : cardTexts sampleFailedTask
      = ["♪", "Song A", "Artist B", "Failed", toString (round (0 : ℚ)) ++ "%"] := rfl
  rw [hc, show round (0 : ℚ) = (0 : ℤ) by simp]
  decide

/-- C7 as amended: the queue card offers the retry action exactly for failed
tasks with a retry handler wired (App.tsx wires none), and what the card
renders never depends on the task's `error` field - the last error reason is
not displayed. -/
theorem failed_card_retry_only_no_error (t : DownloadTask) (onRetryProvided : Bool)
    (e : Option String) :
    (cardRetryShown t onRetryProvided = true
      ↔ (t.status = DownloadStatus.failed ∧ onRetryProvided = true))
  ∧ cardTexts { t with error := e } = cardTexts t
  ∧ cardRetryShown t appQueueRetryProvided = false := by
  refine ⟨?_, rfl, ?_⟩
  · simp [cardRetryShown, Bool.and_eq_true, beq_iff_eq]
  · simp [cardRetryShown, appQueueRetryProvided]
